import Mathlib

/-
  Verification development for the studyhub backend (src/server.js).

  The server is a CRUD layer over two MongoDB collections, Subject and
  Resource.  We embed the document store as explicit lists of records and
  each Express route handler as a pure function from store to store (plus
  its response payload).  Identifier generation and creation timestamps are
  modelled by a monotone counter `nextId` (MongoDB ObjectIds are unique and
  creation-ordered; `timestamps: true` gives monotone `createdAt` values).

  Mongoose conventions reflected here:
  - a schema field absent from the request body is absent from the document
    (modelled as `Option`), and `default: 0` applies only when the payload
    does not supply the field;
  - `findOneAndUpdate(filter, update)` updates the first matching document
    only, and is a no-op when nothing matches; a filter on an `undefined`
    value is stripped by mongoose, so it matches every document
    (`nameMatches none _ = true`);
  - `findById` returns the (unique) document with the given id, modelled as
    `List.find?` on the id;
  - `doc.save()` persists the mutated document under its id.

  The `$regex ... $options: 'i'` search filters are modelled as
  case-insensitive substring tests (`containsCI`), which is the behaviour
  for search strings without regex metacharacters; the spec scopes search
  to "simple case-insensitive substring matching".  Numeric query-string
  coercion (`parseInt`) is modelled for decimal inputs by `parseIntOpt`;
  `page` and `limit` are taken as already-parsed naturals.
-/

namespace StudyHub

/-- Subject document, from `subjectSchema` in src/server.js (name, slug,
icon, category, description, resourceCount with default 0, timestamps). -/
structure Subject where
  id : Nat
  name : Option String
  slug : Option String
  icon : Option String
  category : Option String
  description : Option String
  resourceCount : Int
  createdAt : Nat
deriving Repr, DecidableEq

/-- Resource document, from `resourceSchema` in src/server.js (name,
subject as a plain name string, type, description, link, fileSize, year,
downloads and views with default 0, timestamps). -/
structure Resource where
  id : Nat
  name : Option String
  subject : Option String
  type : Option String
  description : Option String
  link : Option String
  fileSize : Option String
  year : Option Int
  downloads : Int
  views : Int
  createdAt : Nat
deriving Repr, DecidableEq

/-- Request body for Subject create/update (`req.body`); every schema field
may be present or absent. -/
structure SubjectPayload where
  name : Option String := none
  slug : Option String := none
  icon : Option String := none
  category : Option String := none
  description : Option String := none
  resourceCount : Option Int := none
deriving Repr, DecidableEq

/-- Request body for Resource create/update (`req.body`). -/
structure ResourcePayload where
  name : Option String := none
  subject : Option String := none
  type : Option String := none
  description : Option String := none
  link : Option String := none
  fileSize : Option String := none
  year : Option Int := none
  downloads : Option Int := none
  views : Option Int := none
deriving Repr, DecidableEq

/-- The document store: both collections plus the id/timestamp counter. -/
structure Store where
  subjects : List Subject
  resources : List Resource
  nextId : Nat
deriving Repr, DecidableEq

def emptyStore : Store := { subjects := [], resources := [], nextId := 0 }

/-- Mongo filter `{ name: q }` against a Subject.  A filter on an
`undefined` value is stripped by mongoose, so `none` matches everything. -/
def nameMatches (q : Option String) (s : Subject) : Bool :=
  match q with
  | none => true
  | some v => s.name == some v

/-- `Subject.findOneAndUpdate({ name: q }, { $inc: { resourceCount: delta } })`:
adds `delta` to the first matching subject; no-op when nothing matches. -/
def incFirstMatching (q : Option String) (delta : Int) : List Subject → List Subject
  | [] => []
  | s :: rest =>
    if nameMatches q s then { s with resourceCount := s.resourceCount + delta } :: rest
    else s :: incFirstMatching q delta rest

/-- POST /api/subjects: `Subject.create(req.body)`.  Fields come from the
body; `resourceCount` defaults to 0 only when the body omits it. -/
def createSubject (p : SubjectPayload) (st : Store) : Subject × Store :=
  let s : Subject :=
    { id := st.nextId, name := p.name, slug := p.slug, icon := p.icon,
      category := p.category, description := p.description,
      resourceCount := p.resourceCount.getD 0, createdAt := st.nextId }
  (s, { st with subjects := st.subjects ++ [s], nextId := st.nextId + 1 })

/-- Merge semantics of `findByIdAndUpdate(id, req.body)`: supplied fields
overwrite, absent fields are untouched. -/
def applySubjectUpdate (p : SubjectPayload) (s : Subject) : Subject :=
  { s with
    name := (p.name <|> s.name)
    slug := (p.slug <|> s.slug)
    icon := (p.icon <|> s.icon)
    category := (p.category <|> s.category)
    description := (p.description <|> s.description)
    resourceCount := p.resourceCount.getD s.resourceCount }

/-- PUT /api/subjects/:id: `Subject.findByIdAndUpdate`; `none` models the
404 branch. -/
def updateSubject (i : Nat) (p : SubjectPayload) (st : Store) :
    Option (Subject × Store) :=
  match st.subjects.find? (fun s => s.id == i) with
  | none => none
  | some s =>
    let s2 := applySubjectUpdate p s
    some (s2, { st with subjects := st.subjects.map (fun x => if x.id == i then s2 else x) })

/-- DELETE /api/subjects/:id: `Subject.findByIdAndDelete`; no cascade. -/
def deleteSubject (i : Nat) (st : Store) : Option Store :=
  match st.subjects.find? (fun s => s.id == i) with
  | none => none
  | some _ => some { st with subjects := st.subjects.filter (fun s => !(s.id == i)) }

/-- POST /api/resources: `Resource.create(req.body)` followed by
`Subject.findOneAndUpdate({ name: resource.subject }, { $inc: { resourceCount: 1 } })`. -/
def createResource (p : ResourcePayload) (st : Store) : Resource × Store :=
  let r : Resource :=
    { id := st.nextId, name := p.name, subject := p.subject, type := p.type,
      description := p.description, link := p.link, fileSize := p.fileSize,
      year := p.year, downloads := p.downloads.getD 0, views := p.views.getD 0,
      createdAt := st.nextId }
  (r, { st with
        resources := st.resources ++ [r]
        subjects := incFirstMatching r.subject 1 st.subjects
        nextId := st.nextId + 1 })

/-- Merge semantics of `Resource.findByIdAndUpdate(id, req.body)`. -/
def applyResourceUpdate (p : ResourcePayload) (r : Resource) : Resource :=
  { r with
    name := (p.name <|> r.name)
    subject := (p.subject <|> r.subject)
    type := (p.type <|> r.type)
    description := (p.description <|> r.description)
    link := (p.link <|> r.link)
    fileSize := (p.fileSize <|> r.fileSize)
    year := (p.year <|> r.year)
    downloads := p.downloads.getD r.downloads
    views := p.views.getD r.views }

/-- PUT /api/resources/:id: merge update, no counter adjustment. -/
def updateResource (i : Nat) (p : ResourcePayload) (st : Store) :
    Option (Resource × Store) :=
  match st.resources.find? (fun r => r.id == i) with
  | none => none
  | some r =>
    let r2 := applyResourceUpdate p r
    some (r2, { st with resources := st.resources.map (fun x => if x.id == i then r2 else x) })

/-- The effect of `doc.save()` on the Resource collection: the document
with this id is replaced by the mutated one. -/
def saveResource (r : Resource) (rs : List Resource) : List Resource :=
  rs.map (fun x => if x.id == r.id then r else x)

/-- GET /api/resources/:id: `findById`, 404 when absent, otherwise
`resource.views += 1; await resource.save()` and respond with the updated
document. -/
def getResourceById (i : Nat) (st : Store) : Option (Resource × Store) :=
  match st.resources.find? (fun r => r.id == i) with
  | none => none
  | some r =>
    let r2 := { r with views := r.views + 1 }
    some (r2, { st with resources := saveResource r2 st.resources })

/-- DELETE /api/resources/:id: `findByIdAndDelete`, 404 when absent,
otherwise decrement the matching subject's counter. -/
def deleteResource (i : Nat) (st : Store) : Option Store :=
  match st.resources.find? (fun r => r.id == i) with
  | none => none
  | some r =>
    some { st with
           resources := st.resources.filter (fun x => !(x.id == i))
           subjects := incFirstMatching r.subject (-1) st.subjects }

/-- POST /api/resources/:id/download: `findById`, 404 when absent,
otherwise `resource.downloads += 1; await resource.save()` and respond
with the new `downloads` value. -/
def recordDownload (i : Nat) (st : Store) : Option (Int × Store) :=
  match st.resources.find? (fun r => r.id == i) with
  | none => none
  | some r =>
    let r2 := { r with downloads := r.downloads + 1 }
    some (r2.downloads, { st with resources := saveResource r2 st.resources })

/-- One public mutating/fetching operation of the API surface. -/
inductive Op where
  | createSub (p : SubjectPayload)
  | updateSub (i : Nat) (p : SubjectPayload)
  | deleteSub (i : Nat)
  | createRes (p : ResourcePayload)
  | updateRes (i : Nat) (p : ResourcePayload)
  | deleteRes (i : Nat)
  | getRes (i : Nat)
  | download (i : Nat)
deriving Repr, DecidableEq

/-- State effect of one operation; a 404 (`none`) leaves the store as is. -/
def step (op : Op) (st : Store) : Store :=
  match op with
  | .createSub p => (createSubject p st).2
  | .updateSub i p => ((updateSubject i p st).map Prod.snd).getD st
  | .deleteSub i => (deleteSubject i st).getD st
  | .createRes p => (createResource p st).2
  | .updateRes i p => ((updateResource i p st).map Prod.snd).getD st
  | .deleteRes i => (deleteResource i st).getD st
  | .getRes i => ((getResourceById i st).map Prod.snd).getD st
  | .download i => ((recordDownload i st).map Prod.snd).getD st

/-- Run a request sequence left to right. -/
def runOps : List Op → Store → Store
  | [], st => st
  | op :: rest, st => runOps rest (step op st)

/-- Lower-case a string, character by character. -/
def toLowerStr (s : String) : String := String.mk (s.data.map Char.toLower)

/-- Does the second list start with the first one. -/
def listStartsWith : List Char → List Char → Bool
  | [], _ => true
  | _ :: _, [] => false
  | a :: as, b :: bs => a == b && listStartsWith as bs

/-- Does the second list contain the first as a contiguous sublist. -/
def containsSub (pat : List Char) : List Char → Bool
  | [] => pat.isEmpty
  | c :: t => listStartsWith pat (c :: t) || containsSub pat t

/-- Case-insensitive substring test: the semantics of the
`$regex: q, $options: 'i'` filters for metacharacter-free `q`. -/
def containsCI (pat hay : String) : Bool :=
  containsSub (toLowerStr pat).toList (toLowerStr hay).toList

/-- GET /api/subjects filter: `if (category && category !== 'all')
query.category = category; if (search) query.name = $regex search, 'i'`.
An empty string is falsy in JS, so it imposes no filter. -/
def subjectMatches (category search : Option String) (s : Subject) : Bool :=
  (match category with
   | none => true
   | some c => if c == "all" || c == "" then true else s.category == some c)
  &&
  (match search with
   | none => true
   | some q =>
     if q == "" then true else
       match s.name with
       | none => false
       | some n => containsCI q n)

/-- Lexicographic order on character lists by code point; on ASCII names
this is exactly the BSON string comparison behind `sort(name: 1)`. -/
def charListLE : List Char → List Char → Bool
  | [], _ => true
  | _ :: _, [] => false
  | a :: as, b :: bs =>
    if a.toNat < b.toNat then true
    else if b.toNat < a.toNat then false
    else charListLE as bs

/-- Sort key for GET /api/subjects (`sort(name: 1)`): ascending name;
documents without the field sort first, like in MongoDB. -/
def subjKey (s : Subject) : String := s.name.getD ""

def subjLE (a b : Subject) : Prop :=
  charListLE (subjKey a).data (subjKey b).data = true

instance : DecidableRel subjLE :=
  fun a b => inferInstanceAs (Decidable (charListLE (subjKey a).data (subjKey b).data = true))

theorem charListLE_total : ∀ xs ys : List Char,
    charListLE xs ys = true ∨ charListLE ys xs = true := by
  intro xs
  induction xs with
  | nil => intro ys; left; rfl
  | cons a as ih =>
    intro ys
    cases ys with
    | nil => right; rfl
    | cons b bs =>
      by_cases hab : a.toNat < b.toNat
      · left; simp [charListLE, hab]
      · by_cases hba : b.toNat < a.toNat
        · right; simp [charListLE, hba]
        · rcases ih bs with h | h
          · left; simp [charListLE, hab, hba, h]
          · right; simp [charListLE, hab, hba, h]

theorem charListLE_trans : ∀ xs ys zs : List Char,
    charListLE xs ys = true → charListLE ys zs = true → charListLE xs zs = true := by
  intro xs
  induction xs with
  | nil => intro ys zs _ _; rfl
  | cons a as ih =>
    intro ys zs h1 h2
    cases ys with
    | nil => simp [charListLE] at h1
    | cons b bs =>
      cases zs with
      | nil => simp [charListLE] at h2
      | cons c cs =>
        simp only [charListLE] at h1 h2 ⊢
        split_ifs at h1 h2 ⊢ with hab hba hbc hcb hac hca <;>
          first
            | rfl
            | omega
            | (exact ih bs cs h1 h2)

instance : IsTotal Subject subjLE :=
  ⟨fun a b => charListLE_total (subjKey a).data (subjKey b).data⟩

instance : IsTrans Subject subjLE :=
  ⟨fun a b c => charListLE_trans (subjKey a).data (subjKey b).data (subjKey c).data⟩

/-- GET /api/subjects: filter, then sort by name ascending.  The response
`count` field is the length of this list. -/
def listSubjects (category search : Option String) (st : Store) : List Subject :=
  List.insertionSort subjLE (st.subjects.filter (subjectMatches category search))

/-- JS `parseInt` on a decimal string: skip spaces, optional sign, then the
leading run of digits; `none` models NaN (no digit to parse). -/
def parseIntOpt (s : String) : Option Int :=
  let cs := s.toList.dropWhile (fun c => c == ' ')
  match cs with
  | '-' :: rest =>
    let ds := rest.takeWhile (fun c => c.isDigit)
    if ds.isEmpty then none
    else some (-(ds.foldl (fun acc c => acc * 10 + (c.toNat - 48)) 0 : Int))
  | '+' :: rest =>
    let ds := rest.takeWhile (fun c => c.isDigit)
    if ds.isEmpty then none
    else some ((ds.foldl (fun acc c => acc * 10 + (c.toNat - 48)) 0 : Int))
  | _ =>
    let ds := cs.takeWhile (fun c => c.isDigit)
    if ds.isEmpty then none
    else some ((ds.foldl (fun acc c => acc * 10 + (c.toNat - 48)) 0 : Int))

/-- GET /api/resources filter: equality on `subject` and `type`, equality
on `year` after `parseInt` (a NaN year matches no stored document, since
stored years are real numbers), and `search` matching name OR description
case-insensitively.  Empty-string parameters are falsy in JS: no filter. -/
def resourceMatches (subject rtype yearQ search : Option String) (r : Resource) : Bool :=
  (match subject with
   | none => true
   | some s => if s == "" then true else r.subject == some s)
  &&
  (match rtype with
   | none => true
   | some t => if t == "" then true else r.type == some t)
  &&
  (match yearQ with
   | none => true
   | some y =>
     if y == "" then true else
       match parseIntOpt y with
       | none => false
       | some n => r.year == some n)
  &&
  (match search with
   | none => true
   | some q =>
     if q == "" then true else
       (match r.name with
        | none => false
        | some n => containsCI q n)
       ||
       (match r.description with
        | none => false
        | some d => containsCI q d))

/-- Sort relation for GET /api/resources (`sort(createdAt: -1)`):
creation time descending. -/
def resGE (a b : Resource) : Prop := b.createdAt ≤ a.createdAt

instance : DecidableRel resGE :=
  fun a b => inferInstanceAs (Decidable (b.createdAt ≤ a.createdAt))

instance : IsTotal Resource resGE := ⟨fun a b => le_total b.createdAt a.createdAt⟩

instance : IsTrans Resource resGE := ⟨fun _ _ _ h1 h2 => le_trans h2 h1⟩

/-- Response shape of GET /api/resources. -/
structure ResourcePage where
  resources : List Resource
  count : Nat
  total : Nat
  page : Nat
  pages : Nat
deriving Repr, DecidableEq

/-- GET /api/resources: filter, sort by creation time descending, then
`skip((page-1)*limit).limit(limit)` (MongoDB applies skip before limit);
`total = countDocuments(query)` and `pages = Math.ceil(total/limit)`,
which for naturals and `limit > 0` is `(total + limit - 1) / limit`. -/
def listResources (subject rtype yearQ search : Option String)
    (page limit : Nat) (st : Store) : ResourcePage :=
  let matching := st.resources.filter (resourceMatches subject rtype yearQ search)
  let sorted := List.insertionSort resGE matching
  let pageItems := (sorted.drop ((page - 1) * limit)).take limit
  { resources := pageItems
    count := pageItems.length
    total := matching.length
    page := page
    pages := (matching.length + limit - 1) / limit }

/-- HTTP methods relevant to the route table (PATCH stands for any verb
with no registered route). -/
inductive Method where
  | GET | POST | PUT | DELETE | PATCH
deriving Repr, DecidableEq

/-- Which handler a request reaches. -/
inductive RouteOutcome where
  | health | subjectsList | subjectGet | subjectCreate | subjectUpdate | subjectDelete
  | resourcesList | resourceGet | resourceCreate | resourceUpdate | resourceDelete
  | resourceDownload | stats
  | serveIndex
  | routeNotFound
deriving Repr, DecidableEq

/-- The registered API routes of src/server.js, matched on method and path
segments; `none` when no API route matches. -/
def apiRoute (m : Method) (p : List String) : Option RouteOutcome :=
  match m, p with
  | .GET, ["api", "health"] => some .health
  | .GET, ["api", "subjects"] => some .subjectsList
  | .GET, ["api", "subjects", _] => some .subjectGet
  | .POST, ["api", "subjects"] => some .subjectCreate
  | .PUT, ["api", "subjects", _] => some .subjectUpdate
  | .DELETE, ["api", "subjects", _] => some .subjectDelete
  | .GET, ["api", "resources"] => some .resourcesList
  | .GET, ["api", "resources", _] => some .resourceGet
  | .POST, ["api", "resources"] => some .resourceCreate
  | .PUT, ["api", "resources", _] => some .resourceUpdate
  | .DELETE, ["api", "resources", _] => some .resourceDelete
  | .POST, ["api", "resources", _, "download"] => some .resourceDownload
  | .GET, ["api", "stats"] => some .stats
  | _, _ => none

/-- Full routing: API routes first (in registration order they are
disjoint), then the catch-all `app.get(slash-star)` serving the frontend
index for every unmatched GET, and only then the terminal middleware that
answers 404 with success false and message Route not found. -/
def route (m : Method) (p : List String) : RouteOutcome :=
  match apiRoute m p with
  | some o => o
  | none => if m = Method.GET then RouteOutcome.serveIndex else RouteOutcome.routeNotFound

/-- Number of subjects whose name equals `s`. -/
def countMatches (s : String) (subs : List Subject) : Nat :=
  (subs.filter (fun x => x.name == some s)).length

/-- Sum of the `resourceCount` fields of the subjects named `s`; when the
name is unique this is that subject's counter. -/
def totalCount (s : String) (subs : List Subject) : Int :=
  (subs.filter (fun x => x.name == some s)).foldr (fun x acc => x.resourceCount + acc) 0

/-- A request sequence made only of Resource creates whose `subject` body
field equals `s` and of deletes of ids that currently hold a resource
with subject `s` (so every delete succeeds). -/
def goodSeq (s : String) : Store → List Op → Bool
  | _, [] => true
  | st, (Op.createRes p) :: rest =>
    p.subject == some s && goodSeq s (step (Op.createRes p) st) rest
  | st, (Op.deleteRes i) :: rest =>
    (match st.resources.find? (fun x => x.id == i) with
     | some r => r.subject == some s
     | none => false)
    && goodSeq s (step (Op.deleteRes i) st) rest
  | _, _ :: _ => false

/-- Number of Resource-create calls in a sequence. -/
def countCreates : List Op → Nat
  | [] => 0
  | (Op.createRes _) :: rest => countCreates rest + 1
  | _ :: rest => countCreates rest

/-- Number of Resource-delete calls in a sequence. -/
def countDeletes : List Op → Nat
  | [] => 0
  | (Op.deleteRes _) :: rest => countDeletes rest + 1
  | _ :: rest => countDeletes rest

/-- Payloads that do not supply the `downloads`/`views` counter fields, so
the schema defaults and the increment operations govern those counters. -/
def cleanOp : Op → Bool
  | .createRes p => p.downloads == none && p.views == none
  | .updateRes _ p => p.downloads == none && p.views == none
  | _ => true

/-- All Resource counters in the store are non-negative. -/
def resourceCountersNonneg (st : Store) : Prop :=
  ∀ r ∈ st.resources, 0 ≤ r.downloads ∧ 0 ≤ r.views

instance (st : Store) : Decidable (resourceCountersNonneg st) :=
  inferInstanceAs (Decidable (∀ r ∈ st.resources, 0 ≤ r.downloads ∧ 0 ≤ r.views))

/-- Concrete store for the C1 witness: one subject named Math. -/
def c1Store : Store :=
  (createSubject { name := some "Math" } emptyStore).2

/-- Concrete sequence for the C1 witness: two creates, one delete, all
against subject Math (the created resources receive ids 1 and 2). -/
def c1Ops : List Op :=
  [Op.createRes { subject := some "Math" },
   Op.createRes { subject := some "Math" },
   Op.deleteRes 1]

/-- Concrete resource for the C2 witness. -/
def c2Res : Resource :=
  { id := 0
    name := some "Calc Notes"
    subject := some "Math"
    type := some "notes"
    description := none
    link := none
    fileSize := none
    year := none
    downloads := 3
    views := 7
    createdAt := 0 }

/-- Concrete store for the C2 witness. -/
def c2Store : Store := { subjects := [], resources := [c2Res], nextId := 1 }

/-- Concrete sequence for the C3 counterexample: create a resource for a
subject that does not exist yet, then create the subject, then delete the
resource; the decrement lands on the fresh subject and drives its counter
to minus one. -/
def c3Ops : List Op :=
  [Op.createRes { subject := some "Math" },
   Op.createSub { name := some "Math" },
   Op.deleteRes 0]

/-- Concrete resource for the C4 witness. -/
def c4Res : Resource :=
  { id := 0
    name := some "Past Paper"
    subject := some "Math"
    type := some "past-papers"
    description := none
    link := none
    fileSize := none
    year := some 2023
    downloads := 10
    views := 2
    createdAt := 0 }

/-- Concrete store for the C4 witness. -/
def c4Store : Store := { subjects := [], resources := [c4Res], nextId := 1 }

/-- A minimal resource used to populate the C5 witness store. -/
def c5Res (n : Nat) : Resource :=
  { id := n
    name := some "r"
    subject := none
    type := none
    description := none
    link := none
    fileSize := none
    year := none
    downloads := 0
    views := 0
    createdAt := n }

/-- Concrete store for the C5 witness: 25 resources, no filter applied. -/
def c5Store : Store :=
  { subjects := [], resources := (List.range 25).map c5Res, nextId := 25 }

/-- A subject with only a name, for the C6 search example. -/
def namedSubject (i : Nat) (n : String) : Subject :=
  { id := i
    name := some n
    slug := none
    icon := none
    category := none
    description := none
    resourceCount := 0
    createdAt := i }

/-- Concrete store for the C6 witness: Biology, Biochemistry, Chemistry. -/
def c6Store : Store :=
  { subjects :=
      [namedSubject 0 "Biology", namedSubject 1 "Biochemistry", namedSubject 2 "Chemistry"]
    resources := []
    nextId := 3 }

/-- Concrete store for the C9 witness: two subjects both named Math, plus
one resource (id 2) filed under Math. -/
def c9Sub (i : Nat) (cnt : Int) : Subject :=
  { id := i
    name := some "Math"
    slug := none
    icon := none
    category := none
    description := none
    resourceCount := cnt
    createdAt := i }

def c9Res : Resource :=
  { id := 2
    name := some "Algebra Notes"
    subject := some "Math"
    type := some "notes"
    description := none
    link := none
    fileSize := none
    year := none
    downloads := 0
    views := 0
    createdAt := 2 }

def c9Store : Store :=
  { subjects := [c9Sub 0 4, c9Sub 1 9], resources := [c9Res], nextId := 3 }

/-- Concrete store for the C10 witness: one resource with a real year. -/
def c10Store : Store :=
  { subjects := []
    resources :=
      [{ id := 0
         name := some "Paper"
         subject := some "Math"
         type := some "past-papers"
         description := none
         link := none
         fileSize := none
         year := some 2023
         downloads := 0
         views := 0
         createdAt := 0 }]
    nextId := 1 }

/-! Helper lemmas about lookups and the save/replace operation. -/

theorem find?_id_eq {l : List Resource} {i : Nat} {r : Resource}
    (h : l.find? (fun x => x.id == i) = some r) : r.id = i := by
  have := List.find?_some h
  simpa using this

theorem find?_saveResource {l : List Resource} {i : Nat} {r : Resource}
    (h : l.find? (fun x => x.id == i) = some r) (r2 : Resource) (h2 : r2.id = r.id) :
    (saveResource r2 l).find? (fun x => x.id == i) = some r2 := by
  have hri : r.id = i := find?_id_eq h
  induction l with
  | nil => simp [List.find?] at h
  | cons a t ih =>
    by_cases ha : a.id = i
    · have hcond : (a.id == r2.id) = true := by simp [ha, h2, hri]
      simp only [saveResource, List.map_cons, hcond, if_true]
      exact List.find?_cons_of_pos _ (by simp [h2, hri])
    · rw [List.find?_cons_of_neg _ (by simpa using ha)] at h
      have hcond : (a.id == r2.id) = false := by
        simp only [h2, hri, beq_eq_false_iff_ne, ne_eq]
        exact ha
      simp only [saveResource, List.map_cons, hcond, if_false]
      rw [List.find?_cons_of_neg _ (by simpa using ha)]
      exact ih h

theorem mem_saveResource_of_ne {l : List Resource} {r2 x : Resource}
    (hx : x ∈ saveResource r2 l) (hne : x.id ≠ r2.id) : x ∈ l := by
  rcases List.mem_map.mp hx with ⟨y, hy, hxy⟩
  by_cases hc : y.id = r2.id
  · rw [if_pos (by simpa using hc)] at hxy
    subst hxy
    exact absurd rfl hne
  · rw [if_neg (by simpa using hc)] at hxy
    subst hxy
    exact hy

/-! C7 — unmatched routes. -/

/-- C7 counterexample: a GET whose path matches no API route reaches the
frontend catch-all handler and is served index.html, not the 404
Route-not-found response the claim requires for every unmatched request. -/
theorem unmatched_get_serves_frontend :
    apiRoute Method.GET ["api", "missing"] = none ∧
    route Method.GET ["api", "missing"] = RouteOutcome.serveIndex ∧
    route Method.GET ["api", "missing"] ≠ RouteOutcome.routeNotFound :=
  ⟨by decide, by decide, by decide⟩

/-- C7 (amended): a request matching no defined API route is answered 404
Route-not-found only when its method is not GET; an unmatched GET falls to
the catch-all that serves the frontend index. -/
theorem unmatched_route_fallback (m : Method) (p : List String)
    (h : apiRoute m p = none) :
    route m p =
      (if m = Method.GET then RouteOutcome.serveIndex else RouteOutcome.routeNotFound) := by
  unfold route
  rw [h]

theorem unmatched_route_fallback_witness :
    apiRoute Method.POST ["api", "missing"] = none ∧
    route Method.POST ["api", "missing"] =
      (if Method.POST = Method.GET then RouteOutcome.serveIndex
       else RouteOutcome.routeNotFound) :=
  ⟨by decide, unmatched_route_fallback Method.POST ["api", "missing"] (by decide)⟩

/-! C8 — resourceCount of a created Subject. -/

/-- C8 counterexample: `Subject.create(req.body)` honors a payload-supplied
`resourceCount`, so a created Subject's counter is not 0 for every input
payload: a body carrying resourceCount 5 yields 5. -/
theorem createSubject_payload_overrides_count :
    (createSubject { name := some "Math", resourceCount := some 5 } emptyStore).1.resourceCount
      = 5 ∧
    (createSubject { name := some "Math", resourceCount := some 5 } emptyStore).1.resourceCount
      ≠ 0 :=
  ⟨rfl, by decide⟩

/-- C8 (amended): for every payload that does not supply `resourceCount`,
the created Subject's `resourceCount` is 0 (the schema default). -/
theorem resourceCount_starts_zero (p : SubjectPayload) (st : Store)
    (h : p.resourceCount = none) :
    (createSubject p st).1.resourceCount = 0 := by
  simp [createSubject, h]

theorem resourceCount_starts_zero_witness :
    ({ name := some "Biology" } : SubjectPayload).resourceCount = none ∧
    (createSubject { name := some "Biology" } emptyStore).1.resourceCount = 0 :=
  ⟨rfl, resourceCount_starts_zero { name := some "Biology" } emptyStore rfl⟩

/-! C10 — unparsable year filter. -/

/-- C10: a `year` query value that does not parse as an integer (parseInt
gives NaN) makes the filter `year: NaN`, which matches no stored resource;
the listing returns an empty page and total 0 rather than an error. -/
theorem year_unparsable_matches_nothing (ystr : String)
    (subject rtype search : Option String) (page limit : Nat) (st : Store)
    (hy : parseIntOpt ystr = none) (hne : ¬ ystr = "") :
    (listResources subject rtype (some ystr) search page limit st).resources = [] ∧
    (listResources subject rtype (some ystr) search page limit st).total = 0 := by
  have hmatch : ∀ r : Resource,
      resourceMatches subject rtype (some ystr) search r = false := by
    intro r
    simp [resourceMatches, hy, hne]
  have hfilter :
      st.resources.filter (resourceMatches subject rtype (some ystr) search) = [] := by
    refine List.filter_eq_nil_iff.mpr ?_
    intro a _
    simp [hmatch a]
  exact ⟨by simp [listResources, hfilter], by simp [listResources, hfilter]⟩

theorem year_unparsable_matches_nothing_witness :
    parseIntOpt "abc" = none ∧ ¬ ("abc" : String) = "" ∧
    ((listResources none none (some "abc") none 1 20 c10Store).resources = [] ∧
     (listResources none none (some "abc") none 1 20 c10Store).total = 0) :=
  ⟨by decide, by decide,
    year_unparsable_matches_nothing "abc" none none none 1 20 c10Store
      (by decide) (by decide)⟩

/-! C2 — GET /api/resources/:id increments views. -/

/-- C2: fetching a resource by id increments its `views` by exactly 1,
persists the increment (the stored document under that id carries the new
value), returns the updated entity, leaves the subjects and every other
resource untouched; an absent id yields NotFound and changes nothing. -/
theorem getById_increments_views (st : Store) (i : Nat) :
    (∀ r, st.resources.find? (fun x => x.id == i) = some r →
      ∃ st2,
        getResourceById i st = some ({ r with views := r.views + 1 }, st2) ∧
        st2.resources.find? (fun x => x.id == i) = some { r with views := r.views + 1 } ∧
        st2.subjects = st.subjects ∧
        st2.resources.length = st.resources.length ∧
        (∀ x ∈ st2.resources, x.id ≠ i → x ∈ st.resources)) ∧
    (st.resources.find? (fun x => x.id == i) = none →
      getResourceById i st = none ∧ step (Op.getRes i) st = st) := by
  constructor
  · intro r h
    have hdef : getResourceById i st =
        some ({ r with views := r.views + 1 },
          { st with resources := saveResource { r with views := r.views + 1 } st.resources }) := by
      unfold getResourceById
      rw [h]
    refine ⟨_, hdef, ?_, rfl, ?_, ?_⟩
    · exact find?_saveResource h _ rfl
    · simp [saveResource]
    · intro x hx hne
      have hid : r.id = i := find?_id_eq h
      exact mem_saveResource_of_ne hx (by simpa [hid] using hne)
  · intro h
    have hdef : getResourceById i st = none := by
      unfold getResourceById
      rw [h]
    exact ⟨hdef, by simp [step, hdef]⟩

theorem getById_increments_views_witness :
    (c2Store.resources.find? (fun x => x.id == 0) = some c2Res) ∧
    (∃ st2,
        getResourceById 0 c2Store = some ({ c2Res with views := c2Res.views + 1 }, st2) ∧
        st2.resources.find? (fun x => x.id == 0) = some { c2Res with views := c2Res.views + 1 } ∧
        st2.subjects = c2Store.subjects ∧
        st2.resources.length = c2Store.resources.length ∧
        (∀ x ∈ st2.resources, x.id ≠ 0 → x ∈ c2Store.resources)) ∧
    (c2Store.resources.find? (fun x => x.id == 5) = none) ∧
    (getResourceById 5 c2Store = none ∧ step (Op.getRes 5) c2Store = c2Store) :=
  ⟨rfl, (getById_increments_views c2Store 0).1 c2Res rfl, rfl,
    (getById_increments_views c2Store 5).2 rfl⟩

/-! C4 — POST /api/resources/:id/download. -/

/-- C4: recordDownload on a present id increments `downloads` by exactly 1,
persists it, leaves `views` and the subjects unchanged (the stored document
keeps every other field of `r`), and returns the new `downloads` value; a
second sequential call returns the strictly larger next value; an absent id
yields NotFound. -/
theorem recordDownload_spec (st : Store) (i : Nat) :
    (∀ r, st.resources.find? (fun x => x.id == i) = some r →
      ∃ st2,
        recordDownload i st = some (r.downloads + 1, st2) ∧
        st2.resources.find? (fun x => x.id == i) = some { r with downloads := r.downloads + 1 } ∧
        st2.subjects = st.subjects ∧
        (∃ st3, recordDownload i st2 = some (r.downloads + 1 + 1, st3)) ∧
        r.downloads + 1 < r.downloads + 1 + 1) ∧
    (st.resources.find? (fun x => x.id == i) = none → recordDownload i st = none) := by
  constructor
  · intro r h
    have hdef : recordDownload i st =
        some (r.downloads + 1,
          { st with resources := saveResource { r with downloads := r.downloads + 1 } st.resources }) := by
      unfold recordDownload
      rw [h]
    refine ⟨_, hdef, ?_, rfl, ?_, by omega⟩
    · exact find?_saveResource h _ rfl
    · have hfind2 :
          (saveResource { r with downloads := r.downloads + 1 } st.resources).find?
            (fun x => x.id == i) = some { r with downloads := r.downloads + 1 } :=
        find?_saveResource h _ rfl
      refine ⟨{ subjects := st.subjects
                resources := saveResource { r with downloads := r.downloads + 1 + 1 }
                  (saveResource { r with downloads := r.downloads + 1 } st.resources)
                nextId := st.nextId }, ?_⟩
      unfold recordDownload
      rw [hfind2]
  · intro h
    unfold recordDownload
    rw [h]

theorem recordDownload_spec_witness :
    (c4Store.resources.find? (fun x => x.id == 0) = some c4Res) ∧
    (∃ st2,
        recordDownload 0 c4Store = some (c4Res.downloads + 1, st2) ∧
        st2.resources.find? (fun x => x.id == 0) = some { c4Res with downloads := c4Res.downloads + 1 } ∧
        st2.subjects = c4Store.subjects ∧
        (∃ st3, recordDownload 0 st2 = some (c4Res.downloads + 1 + 1, st3)) ∧
        c4Res.downloads + 1 < c4Res.downloads + 1 + 1) ∧
    (c4Store.resources.find? (fun x => x.id == 9) = none) ∧
    recordDownload 9 c4Store = none :=
  ⟨rfl, (recordDownload_spec c4Store 0).1 c4Res rfl, rfl,
    (recordDownload_spec c4Store 9).2 rfl⟩

/-! C1 — net resourceCount change over a create/delete sequence. -/

theorem nameMatches_some (s : String) (a : Subject) :
    nameMatches (some s) a = (a.name == some s) := rfl

theorem countMatches_cons (s : String) (a : Subject) (t : List Subject) :
    countMatches s (a :: t) =
      (if a.name == some s then 1 else 0) + countMatches s t := by
  by_cases h : (a.name == some s) = true
  · simp [countMatches, List.filter_cons, h]
    omega
  · simp [countMatches, List.filter_cons, h]

theorem totalCount_cons (s : String) (a : Subject) (t : List Subject) :
    totalCount s (a :: t) =
      (if a.name == some s then a.resourceCount else 0) + totalCount s t := by
  by_cases h : (a.name == some s) = true
  · simp [totalCount, List.filter_cons, h]
  · simp [totalCount, List.filter_cons, h]

theorem countMatches_incFirstMatching (s : String) (q : Option String) (d : Int) :
    ∀ subs : List Subject,
      countMatches s (incFirstMatching q d subs) = countMatches s subs := by
  intro subs
  induction subs with
  | nil => rfl
  | cons a t ih =>
    by_cases hm : nameMatches q a = true
    · simp only [incFirstMatching, hm, if_true]
      rw [countMatches_cons, countMatches_cons]
    · simp only [incFirstMatching, hm, if_false, Bool.false_eq_true]
      rw [countMatches_cons, countMatches_cons, ih]

theorem totalCount_incFirstMatching (s : String) (d : Int) :
    ∀ subs : List Subject, 1 ≤ countMatches s subs →
      totalCount s (incFirstMatching (some s) d subs) = totalCount s subs + d := by
  intro subs
  induction subs with
  | nil => intro h; simp [countMatches] at h
  | cons a t ih =>
    intro h
    by_cases hm : (a.name == some s) = true
    · simp only [incFirstMatching, nameMatches_some, hm, if_true]
      rw [totalCount_cons, totalCount_cons]
      simp only [hm, if_true]
      ring
    · simp only [incFirstMatching, nameMatches_some, hm, if_false, Bool.false_eq_true]
      have ht : 1 ≤ countMatches s t := by
        rw [countMatches_cons] at h
        simpa [hm] using h
      rw [totalCount_cons, totalCount_cons, ih ht]
      simp only [hm, if_false, Bool.false_eq_true]
      ring

/-- C1: starting from a store whose subjects hold exactly one subject named
`s`, any sequence of resource creates with body subject `s` and successful
deletes of resources filed under `s` changes that subject's counter by
exactly (number of creates) minus (number of deletes), and keeps the
subject unique. -/
theorem resourceCount_net_change (s : String) :
    ∀ (l : List Op) (st : Store),
      goodSeq s st l = true → countMatches s st.subjects = 1 →
      totalCount s (runOps l st).subjects =
        totalCount s st.subjects + (countCreates l : Int) - (countDeletes l : Int) ∧
      countMatches s (runOps l st).subjects = 1 := by
  intro l
  induction l with
  | nil =>
    intro st _ h1
    simp [runOps, countCreates, countDeletes, h1]
  | cons op rest ih =>
    intro st hg h1
    cases op with
    | createRes p =>
      simp only [goodSeq, Bool.and_eq_true] at hg
      obtain ⟨hp, hrest⟩ := hg
      have hp' : p.subject = some s := by simpa using hp
      have hstep : (step (Op.createRes p) st).subjects =
          incFirstMatching (some s) 1 st.subjects := by
        simp [step, createResource, hp']
      have hcm : countMatches s (step (Op.createRes p) st).subjects = 1 := by
        rw [hstep, countMatches_incFirstMatching]
        exact h1
      have hrec := ih (step (Op.createRes p) st) hrest hcm
      constructor
      · have hrun : runOps (Op.createRes p :: rest) st = runOps rest (step (Op.createRes p) st) := rfl
        rw [hrun, hrec.1, hstep, totalCount_incFirstMatching s 1 st.subjects (by omega)]
        have hc : countCreates (Op.createRes p :: rest) = countCreates rest + 1 := rfl
        have hd : countDeletes (Op.createRes p :: rest) = countDeletes rest := rfl
        rw [hc, hd]
        push_cast
        ring
      · exact hrec.2
    | deleteRes i =>
      simp only [goodSeq] at hg
      cases hfind : st.resources.find? (fun x => x.id == i) with
      | none =>
        rw [hfind] at hg
        simp at hg
      | some r =>
        rw [hfind] at hg
        simp only [Bool.and_eq_true] at hg
        obtain ⟨hr, hrest⟩ := hg
        have hr' : r.subject = some s := by simpa using hr
        have hstep : (step (Op.deleteRes i) st).subjects =
            incFirstMatching (some s) (-1) st.subjects := by
          simp [step, deleteResource, hfind, hr']
        have hcm : countMatches s (step (Op.deleteRes i) st).subjects = 1 := by
          rw [hstep, countMatches_incFirstMatching]
          exact h1
        have hrec := ih (step (Op.deleteRes i) st) hrest hcm
        constructor
        · have hrun : runOps (Op.deleteRes i :: rest) st = runOps rest (step (Op.deleteRes i) st) := rfl
          rw [hrun, hrec.1, hstep, totalCount_incFirstMatching s (-1) st.subjects (by omega)]
          have hc : countCreates (Op.deleteRes i :: rest) = countCreates rest := rfl
          have hd : countDeletes (Op.deleteRes i :: rest) = countDeletes rest + 1 := rfl
          rw [hc, hd]
          push_cast
          ring
        · exact hrec.2
    | createSub p => simp [goodSeq] at hg
    | updateSub i p => simp [goodSeq] at hg
    | deleteSub i => simp [goodSeq] at hg
    | updateRes i p => simp [goodSeq] at hg
    | getRes i => simp [goodSeq] at hg
    | download i => simp [goodSeq] at hg

theorem resourceCount_net_change_witness :
    goodSeq "Math" c1Store c1Ops = true ∧
    countMatches "Math" c1Store.subjects = 1 ∧
    (totalCount "Math" (runOps c1Ops c1Store).subjects =
        totalCount "Math" c1Store.subjects +
          (countCreates c1Ops : Int) - (countDeletes c1Ops : Int) ∧
      countMatches "Math" (runOps c1Ops c1Store).subjects = 1) :=
  ⟨by decide, by decide,
    resourceCount_net_change "Math" c1Ops c1Store (by decide) (by decide)⟩

/-! C9 — duplicate subject names. -/

theorem incFirstMatching_decomp (s : String) (d : Int) :
    ∀ subs : List Subject, 1 ≤ countMatches s subs →
      ∃ pre x post,
        subs = pre ++ x :: post ∧
        x.name = some s ∧
        (∀ y ∈ pre, y.name ≠ some s) ∧
        incFirstMatching (some s) d subs =
          pre ++ { x with resourceCount := x.resourceCount + d } :: post := by
  intro subs
  induction subs with
  | nil => intro h; simp [countMatches] at h
  | cons a t ih =>
    intro h
    by_cases hm : (a.name == some s) = true
    · refine ⟨[], a, t, rfl, by simpa using hm, by simp, ?_⟩
      simp [incFirstMatching, nameMatches_some, hm]
    · have ht : 1 ≤ countMatches s t := by
        rw [countMatches_cons] at h
        simpa [hm] using h
      obtain ⟨pre, x, post, heq, hx, hpre, hinc⟩ := ih ht
      refine ⟨a :: pre, x, post, by simp [heq], hx, ?_, ?_⟩
      · intro y hy
        rcases List.mem_cons.mp hy with hy | hy
        · subst hy; simpa using hm
        · exact hpre y hy
      · simp [incFirstMatching, nameMatches_some, hm, hinc]

/-- C9: when two or more stored subjects share the name `s`, creating a
resource filed under `s` (or successfully deleting one) adjusts the counter
of exactly one of them — the first matching document — and returns every
other subject, in particular the remaining duplicates, unchanged in place. -/
theorem duplicate_subjects_single_adjust (s : String) (st : Store)
    (hdup : 2 ≤ countMatches s st.subjects) :
    (∀ p : ResourcePayload, p.subject = some s →
      ∃ pre x post,
        st.subjects = pre ++ x :: post ∧ x.name = some s ∧
        (∀ y ∈ pre, y.name ≠ some s) ∧
        (createResource p st).2.subjects =
          pre ++ { x with resourceCount := x.resourceCount + 1 } :: post) ∧
    (∀ i r, st.resources.find? (fun x => x.id == i) = some r → r.subject = some s →
      ∃ st2, deleteResource i st = some st2 ∧
        ∃ pre x post,
          st.subjects = pre ++ x :: post ∧ x.name = some s ∧
          (∀ y ∈ pre, y.name ≠ some s) ∧
          st2.subjects = pre ++ { x with resourceCount := x.resourceCount + (-1) } :: post) := by
  constructor
  · intro p hp
    obtain ⟨pre, x, post, heq, hx, hpre, hinc⟩ :=
      incFirstMatching_decomp s 1 st.subjects (by omega)
    refine ⟨pre, x, post, heq, hx, hpre, ?_⟩
    simp only [createResource]
    rw [hp]
    exact hinc
  · intro i r hfind hr
    have hdel : deleteResource i st =
        some { st with
               resources := st.resources.filter (fun x => !(x.id == i))
               subjects := incFirstMatching r.subject (-1) st.subjects } := by
      unfold deleteResource
      rw [hfind]
    obtain ⟨pre, x, post, heq, hx, hpre, hinc⟩ :=
      incFirstMatching_decomp s (-1) st.subjects (by omega)
    refine ⟨_, hdel, pre, x, post, heq, hx, hpre, ?_⟩
    rw [hr]
    exact hinc

theorem duplicate_subjects_single_adjust_witness :
    2 ≤ countMatches "Math" c9Store.subjects ∧
    ((∀ p : ResourcePayload, p.subject = some "Math" →
      ∃ pre x post,
        c9Store.subjects = pre ++ x :: post ∧ x.name = some "Math" ∧
        (∀ y ∈ pre, y.name ≠ some "Math") ∧
        (createResource p c9Store).2.subjects =
          pre ++ { x with resourceCount := x.resourceCount + 1 } :: post) ∧
    (∀ i r, c9Store.resources.find? (fun x => x.id == i) = some r →
      r.subject = some "Math" →
      ∃ st2, deleteResource i c9Store = some st2 ∧
        ∃ pre x post,
          c9Store.subjects = pre ++ x :: post ∧ x.name = some "Math" ∧
          (∀ y ∈ pre, y.name ≠ some "Math") ∧
          st2.subjects = pre ++ { x with resourceCount := x.resourceCount + (-1) } :: post)) :=
  ⟨by decide, duplicate_subjects_single_adjust "Math" c9Store (by decide)⟩

/-! C3 — counter non-negativity. -/

/-- C3 counterexample: the state reached from the empty store by creating a
resource filed under Math (no such subject yet, so the increment no-ops),
then creating subject Math (counter 0), then deleting the resource, holds a
subject with resourceCount minus one: the claimed non-negativity invariant
fails on the code. -/
theorem resourceCount_goes_negative :
    ∃ x ∈ (runOps c3Ops emptyStore).subjects, x.resourceCount < 0 := by decide

theorem clean_step_preserves_nonneg (op : Op) (st : Store)
    (hc : cleanOp op = true) (h : resourceCountersNonneg st) :
    resourceCountersNonneg (step op st) := by
  cases op with
  | createSub p =>
    intro r hr
    exact h r (by simpa [step, createSubject] using hr)
  | updateSub i p =>
    cases hF : st.subjects.find? (fun s => s.id == i) with
    | none =>
      intro r hr
      exact h r (by simpa [step, updateSubject, hF] using hr)
    | some s =>
      intro r hr
      exact h r (by simpa [step, updateSubject, hF] using hr)
  | deleteSub i =>
    cases hF : st.subjects.find? (fun s => s.id == i) with
    | none =>
      intro r hr
      exact h r (by simpa [step, deleteSubject, hF] using hr)
    | some s =>
      intro r hr
      exact h r (by simpa [step, deleteSubject, hF] using hr)
  | createRes p =>
    simp only [cleanOp, Bool.and_eq_true] at hc
    intro r hr
    have hr2 : r ∈ st.resources ++
        [{ id := st.nextId, name := p.name, subject := p.subject, type := p.type,
           description := p.description, link := p.link, fileSize := p.fileSize,
           year := p.year, downloads := p.downloads.getD 0, views := p.views.getD 0,
           createdAt := st.nextId }] := by
      simpa [step, createResource] using hr
    rcases List.mem_append.mp hr2 with hold | hnew
    · exact h r hold
    · have hd : p.downloads = none := by simpa using hc.1
      have hv : p.views = none := by simpa using hc.2
      have hre : r =
          { id := st.nextId
            name := p.name
            subject := p.subject
            type := p.type
            description := p.description
            link := p.link
            fileSize := p.fileSize
            year := p.year
            downloads := p.downloads.getD 0
            views := p.views.getD 0
            createdAt := st.nextId } := by simpa using hnew
      subst hre
      simp [hd, hv]
  | updateRes i p =>
    simp only [cleanOp, Bool.and_eq_true] at hc
    cases hF : st.resources.find? (fun r => r.id == i) with
    | none =>
      intro r hr
      exact h r (by simpa [step, updateResource, hF] using hr)
    | some r0 =>
      intro r hr
      have hr2 : r ∈ st.resources.map
          (fun x => if x.id == i then applyResourceUpdate p r0 else x) := by
        simpa [step, updateResource, hF] using hr
      rcases List.mem_map.mp hr2 with ⟨y, hy, hxy⟩
      have hd : p.downloads = none := by simpa using hc.1
      have hv : p.views = none := by simpa using hc.2
      by_cases hyc : (y.id == i) = true
      · rw [if_pos hyc] at hxy
        subst hxy
        have h0 := h r0 (List.mem_of_find?_eq_some hF)
        simpa [applyResourceUpdate, hd, hv] using h0
      · rw [if_neg (by simpa using hyc)] at hxy
        subst hxy
        exact h y hy
  | deleteRes i =>
    cases hF : st.resources.find? (fun r => r.id == i) with
    | none =>
      intro r hr
      exact h r (by simpa [step, deleteResource, hF] using hr)
    | some r0 =>
      intro r hr
      have hr2 : r ∈ st.resources.filter (fun x => !(x.id == i)) := by
        simpa [step, deleteResource, hF] using hr
      exact h r (List.mem_of_mem_filter hr2)
  | getRes i =>
    cases hF : st.resources.find? (fun r => r.id == i) with
    | none =>
      intro r hr
      exact h r (by simpa [step, getResourceById, hF] using hr)
    | some r0 =>
      intro r hr
      have hr2 : r ∈ saveResource { r0 with views := r0.views + 1 } st.resources := by
        simpa [step, getResourceById, hF] using hr
      rcases List.mem_map.mp hr2 with ⟨y, hy, hxy⟩
      by_cases hyc : (y.id == ({ r0 with views := r0.views + 1 } : Resource).id) = true
      · rw [if_pos hyc] at hxy
        subst hxy
        have h0 := h r0 (List.mem_of_find?_eq_some hF)
        constructor
        · exact h0.1
        · have h2 := h0.2
          show (0 : Int) ≤ r0.views + 1
          omega
      · rw [if_neg (by simpa using hyc)] at hxy
        subst hxy
        exact h y hy
  | download i =>
    cases hF : st.resources.find? (fun r => r.id == i) with
    | none =>
      intro r hr
      exact h r (by simpa [step, recordDownload, hF] using hr)
    | some r0 =>
      intro r hr
      have hr2 : r ∈ saveResource { r0 with downloads := r0.downloads + 1 } st.resources := by
        simpa [step, recordDownload, hF] using hr
      rcases List.mem_map.mp hr2 with ⟨y, hy, hxy⟩
      by_cases hyc : (y.id == ({ r0 with downloads := r0.downloads + 1 } : Resource).id) = true
      · rw [if_pos hyc] at hxy
        subst hxy
        have h0 := h r0 (List.mem_of_find?_eq_some hF)
        constructor
        · have h2 := h0.1
          show (0 : Int) ≤ r0.downloads + 1
          omega
        · exact h0.2
      · rw [if_neg (by simpa using hyc)] at hxy
        subst hxy
        exact h y hy

/-- C3 (amended): for request sequences whose create/update bodies do not
supply the `downloads`/`views` fields, every resource's `downloads` and
`views` stay non-negative in every reachable store; a subject's
`resourceCount`, by contrast, can go negative (see the counterexample). -/
theorem views_downloads_stay_nonneg (l : List Op) :
    ∀ st : Store, (∀ op ∈ l, cleanOp op = true) → resourceCountersNonneg st →
      resourceCountersNonneg (runOps l st) := by
  induction l with
  | nil => intro st _ h; exact h
  | cons op rest ih =>
    intro st hc h
    have h1 := clean_step_preserves_nonneg op st (hc op (by simp)) h
    exact ih (step op st) (fun o ho => hc o (by simp [ho])) h1

theorem views_downloads_stay_nonneg_witness :
    (∀ op ∈ c3Ops, cleanOp op = true) ∧
    resourceCountersNonneg emptyStore ∧
    resourceCountersNonneg (runOps c3Ops emptyStore) :=
  ⟨by decide, by decide,
    views_downloads_stay_nonneg c3Ops emptyStore (by decide) (by decide)⟩

/-! C5 — resource listing contract. -/

theorem ceil_div_bounds (t limit : Nat) (hL : 0 < limit) :
    limit * ((t + limit - 1) / limit) < t + limit ∧
    t ≤ limit * ((t + limit - 1) / limit) := by
  have hmod := Nat.div_add_mod (t + limit - 1) limit
  have hlt : (t + limit - 1) % limit < limit := Nat.mod_lt _ hL
  omega

/-- C5: for a positive page size, the resource listing is sorted by
creation time descending, its `count` is the page length and never exceeds
`limit`, every returned resource is a stored resource passing the filter,
`total` counts all stored matches, and `pages` is the ceiling of
total/limit (characterised by the two inequalities). -/
theorem listResources_spec (subject rtype yearQ search : Option String)
    (page limit : Nat) (st : Store) (hlim : 0 < limit) :
    List.Sorted resGE (listResources subject rtype yearQ search page limit st).resources ∧
    (listResources subject rtype yearQ search page limit st).count =
      (listResources subject rtype yearQ search page limit st).resources.length ∧
    (listResources subject rtype yearQ search page limit st).count ≤ limit ∧
    (∀ r ∈ (listResources subject rtype yearQ search page limit st).resources,
      r ∈ st.resources ∧ resourceMatches subject rtype yearQ search r = true) ∧
    (listResources subject rtype yearQ search page limit st).total =
      (st.resources.filter (resourceMatches subject rtype yearQ search)).length ∧
    limit * (listResources subject rtype yearQ search page limit st).pages <
      (listResources subject rtype yearQ search page limit st).total + limit ∧
    (listResources subject rtype yearQ search page limit st).total ≤
      limit * (listResources subject rtype yearQ search page limit st).pages := by
  have hres : (listResources subject rtype yearQ search page limit st).resources =
      ((List.insertionSort resGE
        (st.resources.filter (resourceMatches subject rtype yearQ search))).drop
          ((page - 1) * limit)).take limit := rfl
  have hcount : (listResources subject rtype yearQ search page limit st).count =
      (listResources subject rtype yearQ search page limit st).resources.length := rfl
  have htot : (listResources subject rtype yearQ search page limit st).total =
      (st.resources.filter (resourceMatches subject rtype yearQ search)).length := rfl
  have hpages : (listResources subject rtype yearQ search page limit st).pages =
      ((st.resources.filter (resourceMatches subject rtype yearQ search)).length
        + limit - 1) / limit := rfl
  have hsub : List.Sublist
      (((List.insertionSort resGE
        (st.resources.filter (resourceMatches subject rtype yearQ search))).drop
          ((page - 1) * limit)).take limit)
      (List.insertionSort resGE
        (st.resources.filter (resourceMatches subject rtype yearQ search))) :=
    (List.take_sublist _ _).trans (List.drop_sublist _ _)
  refine ⟨?_, hcount, ?_, ?_, htot, ?_, ?_⟩
  · rw [hres]
    exact List.Pairwise.sublist hsub
      (List.sorted_insertionSort resGE
        (st.resources.filter (resourceMatches subject rtype yearQ search)))
  · rw [hcount, hres]
    exact List.length_take_le _ _
  · intro r hr
    rw [hres] at hr
    have hr2 : r ∈ List.insertionSort resGE
        (st.resources.filter (resourceMatches subject rtype yearQ search)) :=
      hsub.subset hr
    have hr3 : r ∈ st.resources.filter (resourceMatches subject rtype yearQ search) :=
      (List.mem_insertionSort resGE).mp hr2
    have := List.mem_filter.mp hr3
    exact ⟨this.1, this.2⟩
  · rw [htot, hpages]
    exact (ceil_div_bounds _ limit hlim).1
  · rw [htot, hpages]
    exact (ceil_div_bounds _ limit hlim).2

theorem listResources_spec_witness :
    0 < 10 ∧
    (List.Sorted resGE (listResources none none none none 2 10 c5Store).resources ∧
      (listResources none none none none 2 10 c5Store).count =
        (listResources none none none none 2 10 c5Store).resources.length ∧
      (listResources none none none none 2 10 c5Store).count ≤ 10 ∧
      (∀ r ∈ (listResources none none none none 2 10 c5Store).resources,
        r ∈ c5Store.resources ∧ resourceMatches none none none none r = true) ∧
      (listResources none none none none 2 10 c5Store).total =
        (c5Store.resources.filter (resourceMatches none none none none)).length ∧
      10 * (listResources none none none none 2 10 c5Store).pages <
        (listResources none none none none 2 10 c5Store).total + 10 ∧
      (listResources none none none none 2 10 c5Store).total ≤
        10 * (listResources none none none none 2 10 c5Store).pages) ∧
    (listResources none none none none 2 10 c5Store).count = 10 ∧
    (listResources none none none none 2 10 c5Store).total = 25 ∧
    (listResources none none none none 2 10 c5Store).pages = 3 :=
  ⟨by decide, listResources_spec none none none none 2 10 c5Store (by decide),
    by decide, by decide, by decide⟩

/-! C6 — subject listing contract. -/

theorem listStartsWith_iff (pat : List Char) :
    ∀ hay : List Char, listStartsWith pat hay = true ↔ ∃ t, hay = pat ++ t := by
  induction pat with
  | nil =>
    intro hay
    simp [listStartsWith]
  | cons a as ih =>
    intro hay
    cases hay with
    | nil =>
      simp [listStartsWith]
    | cons b bs =>
      simp only [listStartsWith, Bool.and_eq_true, beq_iff_eq, List.cons_append,
        List.cons.injEq]
      constructor
      · rintro ⟨h1, h2⟩
        obtain ⟨t, ht⟩ := (ih bs).mp h2
        exact ⟨t, h1.symm, ht⟩
      · rintro ⟨t, h1, h2⟩
        exact ⟨h1.symm, (ih bs).mpr ⟨t, h2⟩⟩

theorem containsSub_iff (pat : List Char) :
    ∀ hay : List Char, containsSub pat hay = true ↔ ∃ l1 l2, hay = l1 ++ pat ++ l2 := by
  intro hay
  induction hay with
  | nil =>
    constructor
    · intro h
      have hp : pat = [] := by
        simpa [containsSub, List.isEmpty_iff] using h
      exact ⟨[], [], by simp [hp]⟩
    · rintro ⟨l1, l2, h⟩
      have h2 := h.symm
      rw [List.append_assoc] at h2
      rcases List.append_eq_nil.mp h2 with ⟨hl1, hrest⟩
      rcases List.append_eq_nil.mp hrest with ⟨hp, hl2⟩
      simp [containsSub, List.isEmpty_iff, hp]
  | cons c t ih =>
    simp only [containsSub, Bool.or_eq_true]
    constructor
    · rintro (h | h)
      · obtain ⟨t2, ht⟩ := (listStartsWith_iff pat (c :: t)).mp h
        exact ⟨[], t2, by simpa using ht⟩
      · obtain ⟨l1, l2, hl⟩ := ih.mp h
        exact ⟨c :: l1, l2, by simp [hl]⟩
    · rintro ⟨l1, l2, heq⟩
      cases l1 with
      | nil =>
        left
        exact (listStartsWith_iff pat (c :: t)).mpr ⟨l2, by simpa using heq⟩
      | cons d l1t =>
        right
        rw [List.cons_append, List.cons_append] at heq
        injection heq with h1 h2
        exact ih.mpr ⟨l1t, l2, by simpa using h2⟩

/-- C6: the subject listing is sorted by name ascending; a subject appears
in it exactly when it is stored and passes the category/search filter;
category absent or 'all' imposes no filter; the search test is
case-insensitive substring containment on the name (characterised as a
split of the lower-cased name around the lower-cased search string); and on
the store with Biology, Biochemistry and Chemistry, search bio returns
exactly Biochemistry then Biology. -/
theorem listSubjects_spec (category search : Option String) (st : Store) :
    List.Sorted subjLE (listSubjects category search st) ∧
    (∀ x, x ∈ listSubjects category search st ↔
      x ∈ st.subjects ∧ subjectMatches category search x = true) ∧
    listSubjects (some "all") search st = listSubjects none search st ∧
    (∀ q n, containsCI q n = true ↔
      ∃ l1 l2, (toLowerStr n).toList = l1 ++ (toLowerStr q).toList ++ l2) ∧
    (listSubjects none (some "bio") c6Store).map (fun x => x.name) =
      [some "Biochemistry", some "Biology"] := by
  refine ⟨?_, ?_, ?_, ?_, by decide⟩
  · exact List.sorted_insertionSort subjLE _
  · intro x
    rw [listSubjects, List.mem_insertionSort, List.mem_filter]
  · unfold listSubjects
    congr 1
  · intro q n
    exact containsSub_iff (toLowerStr q).toList (toLowerStr n).toList

end StudyHub
